import Mathlib

/-!
Verification of `PollReader.py`: a poll-data parser (`build_data_dict`) and three
read-only queries (`highest_polling_candidate`, `likely_voter_polling_average`,
`polling_history_change`).

Modelling conventions:
* Python `float` values are modelled as exact rationals (`Rat`); the conversion
  `float(s)` is modelled for plain decimal notation (optional sign, digits,
  optional fractional part) — no exponent, `inf`/`nan`, or digit underscores,
  which never occur in the poll data format.
* Python `str.strip()` is modelled for the ASCII whitespace characters.
* Fallible operations (a list index that can raise `IndexError`, a division
  that can raise `ZeroDivisionError`) return `Option`, `none` meaning the
  Python call raises.
* The mutable `self.data_dict` is the `PollTable` structure; methods that only
  read it are modelled as functions of the table, and their calls additionally
  as state transformers returning the (unchanged) table.
-/

/-- Python ASCII whitespace, as stripped by `str.strip()`. -/
def pySpace (c : Char) : Bool :=
  c = ' ' || c = '\t' || c = '\n' || c = '\x0d' || c = '\x0b' || c = '\x0c'

/-- Drop leading characters satisfying `pySpace`. -/
def dropSpace : List Char → List Char
  | [] => []
  | c :: cs => if pySpace c then dropSpace cs else c :: cs

/-- Strip leading and trailing `pySpace` characters. -/
def stripChars (cs : List Char) : List Char :=
  (dropSpace ((dropSpace cs).reverse)).reverse

/-- Python `s.strip()` (ASCII whitespace). -/
def pyStrip (s : String) : String := ⟨stripChars s.data⟩

/-- Python `s.split(',')`: split into the (possibly empty) chunks between
commas; the empty input yields one empty chunk. -/
def splitCommas : List Char → List (List Char)
  | [] => [[]]
  | c :: cs =>
    if c = ',' then [] :: splitCommas cs
    else
      match splitCommas cs with
      | [] => [[c]]
      | g :: gs => (c :: g) :: gs

/-- Python `s.split(',')` on strings. -/
def pySplitComma (s : String) : List String :=
  (splitCommas s.data).map String.mk

/-- Numeric value of a digit character. -/
def digitVal (c : Char) : Nat := c.toNat - 48

/-- Value of a digit string, most significant digit first. -/
def natFromDigits (cs : List Char) : Nat :=
  cs.foldl (fun a c => 10 * a + digitVal c) 0

/-- Whether every character is a decimal digit. -/
def allDigits (cs : List Char) : Bool := cs.all Char.isDigit

/-- Split off a leading `+`/`-` sign; `true` means negative. -/
def signSplit : List Char → Bool × List Char
  | '-' :: cs => (true, cs)
  | '+' :: cs => (false, cs)
  | cs => (false, cs)

/-- Python `int(s)`: strip, optional sign, one or more digits; `none` models a
raised `ValueError`. -/
def pyInt (s : String) : Option Int :=
  let p := signSplit (pyStrip s).data
  if !p.2.isEmpty && allDigits p.2 then
    some (if p.1 then -(natFromDigits p.2 : Int) else (natFromDigits p.2 : Int))
  else none

/-- Split a character list at the first dot: the part before it, and (when a
dot is present) the part after it. -/
def splitDot : List Char → List Char × Option (List Char)
  | [] => ([], none)
  | c :: cs =>
    if c = '.' then ([], some cs)
    else
      let r := splitDot cs
      (c :: r.1, r.2)

/-- Python `float(s)` as an exact rational: strip, optional sign, then either
digits, or digits-dot-digits with at least one digit on some side; `none`
models a raised `ValueError`. -/
def pyFloat (s : String) : Option Rat :=
  let p := signSplit (pyStrip s).data
  let q := splitDot p.2
  let v : Option Rat :=
    match q.2 with
    | none =>
      if !q.1.isEmpty && allDigits q.1 then some (natFromDigits q.1 : Rat) else none
    | some fp =>
      if (!q.1.isEmpty || !fp.isEmpty) && allDigits q.1 && allDigits fp then
        some ((natFromDigits q.1 : Rat) + (natFromDigits fp : Rat) / (10 : Rat) ^ fp.length)
      else none
  v.map (fun x => if p.1 then -x else x)

/-- The `self.data_dict` of `PollReader`: six column lists keyed
`month`, `date`, `sample`, `sample type`, `Harris result`, `Trump result`. -/
structure PollTable where
  month : List String
  date : List Int
  sample : List Int
  sample_type : List String
  harris_result : List Rat
  trump_result : List Rat
deriving Repr, DecidableEq

/-- The freshly constructed table: all six lists empty (`__init__`). -/
def PollTable.empty : PollTable := ⟨[], [], [], [], [], []⟩

/-- One iteration of the `build_data_dict` loop on row text `line`:
strip the line, split on commas, strip each field; skip unless exactly six
fields; then append field by field, where a failing `int`/`float` conversion
aborts the remaining appends of the row (the appends already executed stay:
the `try` block appends as it converts). -/
def processLine (t : PollTable) (line : String) : PollTable :=
  match (pySplitComma (pyStrip line)).map pyStrip with
  | [f0, f1, f2, f3, f4, f5] =>
    let t1 := { t with month := t.month ++ [f0] }
    match pyInt f1 with
    | none => t1
    | some d =>
      let t2 := { t1 with date := t1.date ++ [d] }
      match pyInt f2 with
      | none => t2
      | some sz =>
        let t3 := { t2 with sample := t2.sample ++ [sz] }
        let t4 := { t3 with sample_type := t3.sample_type ++ [f3] }
        match pyFloat f4 with
        | none => t4
        | some hv =>
          let t5 := { t4 with harris_result := t4.harris_result ++ [hv] }
          match pyFloat f5 with
          | none => t5
          | some tv => { t5 with trump_result := t5.trump_result ++ [tv] }
  | _ => t

/-- `PollReader.build_data_dict`: iterate `processLine` over every raw line
after the first (the header), mutating the table. -/
def build_data_dict (raw_data : List String) (t : PollTable) : PollTable :=
  (raw_data.drop 1).foldl processLine t

/-- Python `max` over a nonempty list (the empty case is guarded at the call
site; `0` is a junk value there). -/
def maxList : List Rat → Rat
  | [] => 0
  | x :: xs => xs.foldl max x

/-- Round a rational to the nearest tenth, halves to even, as `.1f` formatting
does on the exact value (the binary-float representation error of the Python
value is not modelled). -/
def roundTenths (q : Rat) : Int :=
  let x := q * 10
  let fl := x.floor
  if x - fl < 1 / 2 then fl
  else if x - fl > 1 / 2 then fl + 1
  else if fl % 2 = 0 then fl else fl + 1

/-- Python `f"{q:.1f}"` on the exact rational value. -/
def format1f (q : Rat) : String :=
  let n := roundTenths q
  let a := n.natAbs
  let s := toString (a / 10) ++ "." ++ toString (a % 10)
  if n < 0 then "-" ++ s else s

/-- `PollReader.highest_polling_candidate`: maximum over the concatenation of
the two result columns, with membership tests deciding the label. -/
def highest_polling_candidate (t : PollTable) : String :=
  let harris_results := t.harris_result
  let trump_results := t.trump_result
  let all_results := harris_results ++ trump_results
  if all_results.isEmpty then "No polling data available"
  else
    let max_result := maxList all_results
    let harris_has_max : Bool := decide (max_result ∈ harris_results)
    let trump_has_max : Bool := decide (max_result ∈ trump_results)
    let result_str := format1f max_result ++ "%"
    if harris_has_max && trump_has_max then result_str ++ " (EVEN)"
    else if harris_has_max then "Harris: " ++ result_str
    else if trump_has_max then "Trump: " ++ result_str
    else "Error in processing"

/-- The filtering loop of `likely_voter_polling_average`, over
`enumerate(sample_types)` with accumulators `hs`, `ts`: rows whose stripped
sample type is `"Likely Voters"` contribute `harris_results[i]` and
`trump_results[i]`; an out-of-range index raises (`none`). -/
def lvCollect (hr tr : List Rat) :
    List (Nat × String) → List Rat → List Rat → Option (List Rat × List Rat)
  | [], hs, ts => some (hs, ts)
  | (i, st) :: rest, hs, ts =>
    if pyStrip st = "Likely Voters" then
      match hr[i]?, tr[i]? with
      | some h, some tv => lvCollect hr tr rest (hs ++ [h]) (ts ++ [tv])
      | _, _ => none
    else lvCollect hr tr rest hs ts

/-- Python `enumerate` starting at index `n`. -/
def enumFromN : Nat → List String → List (Nat × String)
  | _, [] => []
  | n, x :: xs => (n, x) :: enumFromN (n + 1) xs

/-- `PollReader.likely_voter_polling_average`: collect both candidates' scores
on rows sampled from likely voters, then average each list, `0.0` when the
list is empty; `none` models an uncaught `IndexError` inside the loop. -/
def likely_voter_polling_average (t : PollTable) : Option (Rat × Rat) :=
  match lvCollect t.harris_result t.trump_result (enumFromN 0 t.sample_type) [] [] with
  | none => none
  | some (hs, ts) =>
    some (if hs.isEmpty then 0 else hs.sum / (hs.length : Rat),
          if ts.isEmpty then 0 else ts.sum / (ts.length : Rat))

/-- Python `sum(l) / len(l)`; `none` models `ZeroDivisionError` on an empty
list. -/
def pyMean (l : List Rat) : Option Rat :=
  if l.isEmpty then none else some (l.sum / (l.length : Rat))

/-- `PollReader.polling_history_change`: `(0.0, 0.0)` when fewer than 30 rows,
otherwise the difference between the mean of the last 30 and the mean of the
first 30 entries of each result column (slices `[:30]` and
`[data_count - 30:]`, `data_count = len(harris_results)`). -/
def polling_history_change (t : PollTable) : Option (Rat × Rat) :=
  let harris_results := t.harris_result
  let trump_results := t.trump_result
  let data_count := harris_results.length
  if data_count < 30 then some (0, 0)
  else
    match pyMean (harris_results.take 30), pyMean (trump_results.take 30),
          pyMean (harris_results.drop (data_count - 30)),
          pyMean (trump_results.drop (data_count - 30)) with
    | some eh, some et, some lh, some lt => some (lh - eh, lt - et)
    | _, _, _, _ => none

/-- A call of `highest_polling_candidate` as a state transformer on the
receiver's table: the method body reads `self.data_dict` and never writes
to it, so the call returns its result alongside the table it leaves. -/
def highest_polling_candidate_call (t : PollTable) : String × PollTable :=
  (highest_polling_candidate t, t)

/-- A call of `likely_voter_polling_average` as a state transformer on the
receiver's table: the method body writes only the local score lists, never
`self.data_dict`. -/
def likely_voter_polling_average_call (t : PollTable) : Option (Rat × Rat) × PollTable :=
  (likely_voter_polling_average t, t)

/-- A call of `polling_history_change` as a state transformer on the
receiver's table: the method body reads `self.data_dict` and never writes
to it. -/
def polling_history_change_call (t : PollTable) : Option (Rat × Rat) × PollTable :=
  (polling_history_change t, t)

/-- Arithmetic mean of a list of rationals (specification side). -/
def listMean (l : List Rat) : Rat := l.sum / (l.length : Rat)

/-- Specification-side selection for C4: the Harris results on rows whose
stripped sample type equals `"Likely Voters"`, by position. -/
def likelyHarris (t : PollTable) : List Rat :=
  ((t.sample_type.zip t.harris_result).filter
    (fun p => pyStrip p.1 = "Likely Voters")).map Prod.snd

/-- Specification-side selection for C4: the Trump results on rows whose
stripped sample type equals `"Likely Voters"`, by position. -/
def likelyTrump (t : PollTable) : List Rat :=
  ((t.sample_type.zip t.trump_result).filter
    (fun p => pyStrip p.1 = "Likely Voters")).map Prod.snd

lemma foldl_max_mem (x : Rat) (xs : List Rat) : xs.foldl max x = x ∨ xs.foldl max x ∈ xs := by
  induction xs generalizing x with
  | nil => exact Or.inl rfl
  | cons c cs ih =>
    rw [List.foldl_cons]
    rcases ih (max x c) with h | h
    · rcases max_choice x c with hm | hm
      · exact Or.inl (h.trans hm)
      · exact Or.inr (by rw [h, hm]; exact List.mem_cons_self _ _)
    · exact Or.inr (List.mem_cons_of_mem c h)

lemma le_foldl_max (x : Rat) (xs : List Rat) : ∀ y ∈ x :: xs, y ≤ xs.foldl max x := by
  induction xs generalizing x with
  | nil =>
    intro y hy
    rw [List.mem_singleton] at hy
    simp [hy]
  | cons c cs ih =>
    intro y hy
    rw [List.foldl_cons]
    rcases List.mem_cons.mp hy with h | h
    · subst h
      exact le_trans (le_max_left y c) (ih (max y c) (max y c) (List.mem_cons_self _ _))
    · rcases List.mem_cons.mp h with h | h
      · subst h
        exact le_trans (le_max_right x y) (ih (max x y) (max x y) (List.mem_cons_self _ _))
      · exact ih (max x c) y (List.mem_cons_of_mem _ h)

lemma maxList_mem (l : List Rat) (h : l ≠ []) : maxList l ∈ l := by
  cases l with
  | nil => exact absurd rfl h
  | cons x xs =>
    have e : maxList (x :: xs) = xs.foldl max x := rfl
    rw [e]
    rcases foldl_max_mem x xs with h1 | h1
    · rw [h1]; exact List.mem_cons_self _ _
    · exact List.mem_cons_of_mem _ h1

lemma le_maxList (l : List Rat) (y : Rat) (hy : y ∈ l) : y ≤ maxList l := by
  cases l with
  | nil => exact absurd hy (List.not_mem_nil y)
  | cons x xs => exact le_foldl_max x xs y hy

lemma string_prefix_ne (a s b : String) (h : ¬ (a.data <+: b.data)) : a ++ s ≠ b := by
  intro he
  exact h ⟨s.data, by rw [← String.data_append, he]⟩

lemma string_suffix_ne (s a b : String) (h : ¬ (a.data <:+ b.data)) : s ++ a ≠ b := by
  intro he
  exact h ⟨s.data, by rw [← String.data_append, he]⟩

lemma highest_polling_candidate_cases (t : PollTable)
    (h : t.harris_result ++ t.trump_result ≠ []) :
    highest_polling_candidate t =
      (if maxList (t.harris_result ++ t.trump_result) ∈ t.harris_result ∧
          maxList (t.harris_result ++ t.trump_result) ∈ t.trump_result then
        (format1f (maxList (t.harris_result ++ t.trump_result)) ++ "%") ++ " (EVEN)"
      else if maxList (t.harris_result ++ t.trump_result) ∈ t.harris_result then
        "Harris: " ++ (format1f (maxList (t.harris_result ++ t.trump_result)) ++ "%")
      else
        "Trump: " ++ (format1f (maxList (t.harris_result ++ t.trump_result)) ++ "%")) := by
  have hmem := maxList_mem _ h
  rw [highest_polling_candidate]
  have hne : (t.harris_result ++ t.trump_result).isEmpty = false := by simpa using h
  rw [hne]
  by_cases h1 : maxList (t.harris_result ++ t.trump_result) ∈ t.harris_result <;>
    by_cases h2 : maxList (t.harris_result ++ t.trump_result) ∈ t.trump_result <;>
    simp [h1, h2]
  rcases List.mem_append.mp hmem with h3 | h3
  · exact absurd h3 h1
  · exact absurd h3 h2

/-- C1: the claimed skip invariant fails on the code. In the row
`"SEP,5,x,Likely Voters,50.0,40.0"` the sample-size field is non-numeric, yet
the row contributes its month and date entries — the `try` block appends each
column as it converts, so the appends before the failing conversion persist —
and the six lists end with unequal lengths. -/
theorem C1_partial_row_bug :
    build_data_dict ["h", "SEP,5,x,Likely Voters,50.0,40.0"] PollTable.empty
        = ⟨["SEP"], [5], [], [], [], []⟩ ∧
      (build_data_dict ["h", "SEP,5,x,Likely Voters,50.0,40.0"] PollTable.empty).month.length ≠
        (build_data_dict ["h", "SEP,5,x,Likely Voters,50.0,40.0"] PollTable.empty).sample.length := by
  decide

/-- C5: on a table with both result columns empty, `highest_polling_candidate`
returns the distinct no-data message (total, no exception, no candidate or
percentage fragment). -/
theorem C5_no_data (t : PollTable) (hh : t.harris_result = [])
    (ht : t.trump_result = []) :
    highest_polling_candidate t = "No polling data available" := by
  rw [highest_polling_candidate]
  simp [hh, ht]

theorem C5_witness :
    PollTable.empty.harris_result = [] ∧ PollTable.empty.trump_result = [] ∧
      highest_polling_candidate PollTable.empty = "No polling data available" :=
  ⟨rfl, rfl, C5_no_data PollTable.empty rfl rfl⟩

/-- C3: with at least one result value, `highest_polling_candidate` reports
the maximum `m` of the union of both result columns (first two conjuncts:
`m` belongs to the union and dominates it), formatted to one decimal place,
tagged `" (EVEN)"` when `m` occurs (by exact equality) in both columns,
labelled `Harris` when it occurs only in the Harris column and `Trump` when
only in the Trump column. -/
theorem C3_highest_polling (t : PollTable)
    (h : t.harris_result ++ t.trump_result ≠ []) :
    maxList (t.harris_result ++ t.trump_result) ∈ t.harris_result ++ t.trump_result ∧
    (∀ x ∈ t.harris_result ++ t.trump_result,
      x ≤ maxList (t.harris_result ++ t.trump_result)) ∧
    highest_polling_candidate t =
      (if maxList (t.harris_result ++ t.trump_result) ∈ t.harris_result ∧
          maxList (t.harris_result ++ t.trump_result) ∈ t.trump_result then
        (format1f (maxList (t.harris_result ++ t.trump_result)) ++ "%") ++ " (EVEN)"
      else if maxList (t.harris_result ++ t.trump_result) ∈ t.harris_result then
        "Harris: " ++ (format1f (maxList (t.harris_result ++ t.trump_result)) ++ "%")
      else
        "Trump: " ++ (format1f (maxList (t.harris_result ++ t.trump_result)) ++ "%")) :=
  ⟨maxList_mem _ h, fun x hx => le_maxList _ x hx, highest_polling_candidate_cases t h⟩

/-- Example table for the highest-polling witnesses: one Harris result `57`,
one Trump result `42`. -/
def tEx3 : PollTable := ⟨[], [], [], [], [57], [42]⟩

theorem C3_witness :
    tEx3.harris_result ++ tEx3.trump_result ≠ [] ∧
      (maxList (tEx3.harris_result ++ tEx3.trump_result) ∈
          tEx3.harris_result ++ tEx3.trump_result ∧
        (∀ x ∈ tEx3.harris_result ++ tEx3.trump_result,
          x ≤ maxList (tEx3.harris_result ++ tEx3.trump_result)) ∧
        highest_polling_candidate tEx3 =
          (if maxList (tEx3.harris_result ++ tEx3.trump_result) ∈ tEx3.harris_result ∧
              maxList (tEx3.harris_result ++ tEx3.trump_result) ∈ tEx3.trump_result then
            (format1f (maxList (tEx3.harris_result ++ tEx3.trump_result)) ++ "%") ++ " (EVEN)"
          else if maxList (tEx3.harris_result ++ tEx3.trump_result) ∈ tEx3.harris_result then
            "Harris: " ++ (format1f (maxList (tEx3.harris_result ++ tEx3.trump_result)) ++ "%")
          else
            "Trump: " ++
              (format1f (maxList (tEx3.harris_result ++ tEx3.trump_result)) ++ "%"))) :=
  ⟨by decide, C3_highest_polling tEx3 (by decide)⟩

/-- C9: the final fallback branch of `highest_polling_candidate` is
unreachable: whenever the concatenation of the two result columns is
non-empty, its maximum lies in at least one of the columns, and the method
never returns `"Error in processing"`. -/
theorem C9_fallback_unreachable (t : PollTable)
    (h : t.harris_result ++ t.trump_result ≠ []) :
    (maxList (t.harris_result ++ t.trump_result) ∈ t.harris_result ∨
      maxList (t.harris_result ++ t.trump_result) ∈ t.trump_result) ∧
    highest_polling_candidate t ≠ "Error in processing" := by
  have hmem := List.mem_append.mp (maxList_mem _ h)
  refine ⟨hmem, ?_⟩
  rw [highest_polling_candidate_cases t h]
  split
  · exact string_suffix_ne _ _ _ (by decide)
  · split
    · exact string_prefix_ne _ _ _ (by decide)
    · exact string_prefix_ne _ _ _ (by decide)

theorem C9_witness :
    tEx3.harris_result ++ tEx3.trump_result ≠ [] ∧
      ((maxList (tEx3.harris_result ++ tEx3.trump_result) ∈ tEx3.harris_result ∨
          maxList (tEx3.harris_result ++ tEx3.trump_result) ∈ tEx3.trump_result) ∧
        highest_polling_candidate tEx3 ≠ "Error in processing") :=
  ⟨by decide, C9_fallback_unreachable tEx3 (by decide)⟩

/-- C7: every query call leaves the table unchanged: the state component of
each of the three modelled method calls is the table it was given. -/
theorem C7_queries_read_only (t : PollTable) :
    (highest_polling_candidate_call t).2 = t ∧
      (likely_voter_polling_average_call t).2 = t ∧
      (polling_history_change_call t).2 = t :=
  ⟨rfl, rfl, rfl⟩

/-- C8: `build_data_dict` is a deterministic, pure function of the raw lines:
from the freshly constructed empty table, equal raw-line lists produce equal
tables, and the call yields nothing besides the populated table. -/
theorem C8_deterministic (r1 r2 : List String) (h : r1 = r2) :
    build_data_dict r1 PollTable.empty = build_data_dict r2 PollTable.empty := by
  rw [h]

theorem C8_witness :
    (["h", "SEP,5,100,LV,50,40"] : List String) = ["h", "SEP,5,100,LV,50,40"] ∧
      build_data_dict ["h", "SEP,5,100,LV,50,40"] PollTable.empty
        = build_data_dict ["h", "SEP,5,100,LV,50,40"] PollTable.empty :=
  ⟨rfl, C8_deterministic _ _ rfl⟩

lemma pyMean_of_ne_nil (l : List Rat) (h : l ≠ []) : pyMean l = some (listMean l) := by
  rw [pyMean, listMean]
  simp [h]

/-- C2: with equal-length result columns of length `n ≥ 30`,
`polling_history_change` returns per candidate the mean of exactly the last 30
entries minus the mean of exactly the first 30 entries in table order (the
four length conjuncts say the windows are exactly 30 long), and with `n < 30`
it returns exactly `(0.0, 0.0)`. -/
theorem C2_history_change (t : PollTable)
    (hlen : t.trump_result.length = t.harris_result.length) :
    (30 ≤ t.harris_result.length →
      polling_history_change t = some
        (listMean (t.harris_result.drop (t.harris_result.length - 30))
            - listMean (t.harris_result.take 30),
          listMean (t.trump_result.drop (t.harris_result.length - 30))
            - listMean (t.trump_result.take 30)) ∧
      (t.harris_result.take 30).length = 30 ∧
      (t.trump_result.take 30).length = 30 ∧
      (t.harris_result.drop (t.harris_result.length - 30)).length = 30 ∧
      (t.trump_result.drop (t.harris_result.length - 30)).length = 30) ∧
    (t.harris_result.length < 30 → polling_history_change t = some (0, 0)) := by
  constructor
  · intro h30
    have hnl : ¬ t.harris_result.length < 30 := not_lt.mpr h30
    have l1 : (t.harris_result.take 30).length = 30 := by
      rw [List.length_take]; exact Nat.min_eq_left h30
    have l2 : (t.trump_result.take 30).length = 30 := by
      rw [List.length_take, hlen]; exact Nat.min_eq_left h30
    have l3 : (t.harris_result.drop (t.harris_result.length - 30)).length = 30 := by
      rw [List.length_drop]; exact Nat.sub_sub_self h30
    have l4 : (t.trump_result.drop (t.harris_result.length - 30)).length = 30 := by
      rw [List.length_drop, hlen]; exact Nat.sub_sub_self h30
    have e1 := pyMean_of_ne_nil (t.harris_result.take 30)
      (fun e => by rw [e] at l1; simp at l1)
    have e2 := pyMean_of_ne_nil (t.trump_result.take 30)
      (fun e => by rw [e] at l2; simp at l2)
    have e3 := pyMean_of_ne_nil (t.harris_result.drop (t.harris_result.length - 30))
      (fun e => by rw [e] at l3; simp at l3)
    have e4 := pyMean_of_ne_nil (t.trump_result.drop (t.harris_result.length - 30))
      (fun e => by rw [e] at l4; simp at l4)
    refine ⟨?_, l1, l2, l3, l4⟩
    simp only [polling_history_change]
    rw [if_neg hnl, e1, e2, e3, e4]
  · intro h
    simp only [polling_history_change]
    rw [if_pos h]

/-- Example table for the history-change witness: thirty Harris results `50`
and thirty Trump results `40`. -/
def t30 : PollTable := ⟨[], [], [], [], List.replicate 30 50, List.replicate 30 40⟩

theorem C2_witness :
    t30.trump_result.length = t30.harris_result.length ∧
      ((30 ≤ t30.harris_result.length →
        polling_history_change t30 = some
          (listMean (t30.harris_result.drop (t30.harris_result.length - 30))
              - listMean (t30.harris_result.take 30),
            listMean (t30.trump_result.drop (t30.harris_result.length - 30))
              - listMean (t30.trump_result.take 30)) ∧
        (t30.harris_result.take 30).length = 30 ∧
        (t30.trump_result.take 30).length = 30 ∧
        (t30.harris_result.drop (t30.harris_result.length - 30)).length = 30 ∧
        (t30.trump_result.drop (t30.harris_result.length - 30)).length = 30) ∧
      (t30.harris_result.length < 30 → polling_history_change t30 = some (0, 0))) :=
  ⟨by simp [t30], C2_history_change t30 (by simp [t30])⟩

lemma lvCollect_complete (hr tr : List Rat) (sts : List String) :
    ∀ (k : Nat) (hs ts : List Rat),
      k + sts.length ≤ hr.length → k + sts.length ≤ tr.length →
      lvCollect hr tr (enumFromN k sts) hs ts =
        some (hs ++ ((sts.zip (hr.drop k)).filter
                (fun p => pyStrip p.1 = "Likely Voters")).map Prod.snd,
              ts ++ ((sts.zip (tr.drop k)).filter
                (fun p => pyStrip p.1 = "Likely Voters")).map Prod.snd) := by
  induction sts with
  | nil =>
    intro k hs ts h1 h2
    simp [enumFromN, lvCollect]
  | cons s ss ih =>
    intro k hs ts h1 h2
    have hss : ss.length + (k + 1) ≤ hr.length := by
      simp [List.length_cons] at h1; omega
    have hss2 : ss.length + (k + 1) ≤ tr.length := by
      simp [List.length_cons] at h2; omega
    have hk1 : k < hr.length := by omega
    have hk2 : k < tr.length := by omega
    rw [show enumFromN k (s :: ss) = (k, s) :: enumFromN (k + 1) ss from rfl]
    have z1 : (s :: ss).zip (hr.drop k) = (s, hr[k]) :: ss.zip (hr.drop (k + 1)) := by
      rw [List.drop_eq_getElem_cons hk1, List.zip_cons_cons]
    have z2 : (s :: ss).zip (tr.drop k) = (s, tr[k]) :: ss.zip (tr.drop (k + 1)) := by
      rw [List.drop_eq_getElem_cons hk2, List.zip_cons_cons]
    rw [z1, z2]
    by_cases hst : pyStrip s = "Likely Voters"
    · have step : lvCollect hr tr ((k, s) :: enumFromN (k + 1) ss) hs ts =
          lvCollect hr tr (enumFromN (k + 1) ss) (hs ++ [hr[k]]) (ts ++ [tr[k]]) := by
        simp only [lvCollect, if_pos hst, List.getElem?_eq_getElem hk1,
          List.getElem?_eq_getElem hk2]
      rw [step, ih (k + 1) (hs ++ [hr[k]]) (ts ++ [tr[k]]) (by omega) (by omega)]
      simp [hst]
    · have step : lvCollect hr tr ((k, s) :: enumFromN (k + 1) ss) hs ts =
          lvCollect hr tr (enumFromN (k + 1) ss) hs ts := by
        simp only [lvCollect, if_neg hst]
      rw [step, ih (k + 1) hs ts (by omega) (by omega)]
      simp [hst]

/-- C4: `likely_voter_polling_average` selects exactly the rows whose trimmed
sample-type field equals the literal `"Likely Voters"` (case-sensitive exact
match) and returns the arithmetic means of the Harris and of the Trump
results on those rows, `(0.0, 0.0)` when no row matches; stated for tables
whose result columns cover the sample-type column, as the documented length
invariant guarantees. -/
theorem C4_likely_voter_average (t : PollTable)
    (hH : t.sample_type.length ≤ t.harris_result.length)
    (hT : t.sample_type.length ≤ t.trump_result.length) :
    likely_voter_polling_average t =
      some (if likelyHarris t = [] then 0 else listMean (likelyHarris t),
            if likelyTrump t = [] then 0 else listMean (likelyTrump t)) := by
  have h := lvCollect_complete t.harris_result t.trump_result t.sample_type 0 [] []
    (by simpa using hH) (by simpa using hT)
  simp only [List.drop_zero, List.nil_append] at h
  rw [likely_voter_polling_average, h]
  simp only [likelyHarris, likelyTrump, listMean, List.isEmpty_iff]

/-- Example table for the likely-voter witnesses: one `"Likely Voters"` row
and one `"Registered Voters"` row. -/
def tLV : PollTable :=
  ⟨[], [], [], ["Likely Voters", "Registered Voters"], [51, 48], [44, 47]⟩

theorem C4_witness :
    tLV.sample_type.length ≤ tLV.harris_result.length ∧
      tLV.sample_type.length ≤ tLV.trump_result.length ∧
      likely_voter_polling_average tLV =
        some (if likelyHarris tLV = [] then 0 else listMean (likelyHarris tLV),
              if likelyTrump tLV = [] then 0 else listMean (likelyTrump tLV)) :=
  ⟨by decide, by decide, C4_likely_voter_average tLV (by decide) (by decide)⟩

/-- C10: whenever both result columns are at least as long as the sample-type
column (in particular under the equal-length invariant), every index access
`harris_results[i]`/`trump_results[i]` performed by the filtering loop of
`likely_voter_polling_average` is in bounds, so the method returns a value
rather than raising. -/
theorem C10_lv_in_bounds (t : PollTable)
    (hH : t.sample_type.length ≤ t.harris_result.length)
    (hT : t.sample_type.length ≤ t.trump_result.length) :
    (likely_voter_polling_average t).isSome = true := by
  have h := lvCollect_complete t.harris_result t.trump_result t.sample_type 0 [] []
    (by simpa using hH) (by simpa using hT)
  simp only [List.drop_zero, List.nil_append] at h
  rw [likely_voter_polling_average, h]
  rfl

theorem C10_witness :
    tLV.sample_type.length ≤ tLV.harris_result.length ∧
      tLV.sample_type.length ≤ tLV.trump_result.length ∧
      (likely_voter_polling_average tLV).isSome = true :=
  ⟨by decide, by decide, C10_lv_in_bounds tLV (by decide) (by decide)⟩

/-- C6: `build_data_dict` never treats the first raw line as data — the
header's content is irrelevant, and a header-only input leaves the table
unchanged — and every line that splits on commas into exactly six trimmed
fields whose numeric fields all convert appends the trimmed month text, the
integer date, the integer sample size, the trimmed sample-type text and the
two decimal results to the end of their respective columns, so rows land in
file order. -/
theorem C6_header_and_valid_row (hd hd' line : String) (rest : List String)
    (t : PollTable) (f0 f1 f2 f3 f4 f5 : String) (d sz : Int) (hv tv : Rat)
    (hsplit : (pySplitComma (pyStrip line)).map pyStrip = [f0, f1, f2, f3, f4, f5])
    (h1 : pyInt f1 = some d) (h2 : pyInt f2 = some sz)
    (h4 : pyFloat f4 = some hv) (h5 : pyFloat f5 = some tv) :
    build_data_dict (hd :: rest) t = build_data_dict (hd' :: rest) t ∧
      build_data_dict [hd] t = t ∧
      processLine t line =
        ⟨t.month ++ [f0], t.date ++ [d], t.sample ++ [sz],
          t.sample_type ++ [f3], t.harris_result ++ [hv], t.trump_result ++ [tv]⟩ := by
  refine ⟨rfl, rfl, ?_⟩
  simp only [processLine, hsplit, h1, h2, h4, h5]

theorem C6_witness :
    (pySplitComma (pyStrip "SEP,5,1000,Likely Voters,50,40")).map pyStrip
        = ["SEP", "5", "1000", "Likely Voters", "50", "40"] ∧
      pyInt "5" = some 5 ∧ pyInt "1000" = some 1000 ∧
      pyFloat "50" = some 50 ∧ pyFloat "40" = some 40 ∧
      (build_data_dict ["hdrA", "keep"] PollTable.empty
          = build_data_dict ["hdrB", "keep"] PollTable.empty ∧
        build_data_dict ["hdrA"] PollTable.empty = PollTable.empty ∧
        processLine PollTable.empty "SEP,5,1000,Likely Voters,50,40"
          = ⟨PollTable.empty.month ++ ["SEP"], PollTable.empty.date ++ [5],
              PollTable.empty.sample ++ [1000],
              PollTable.empty.sample_type ++ ["Likely Voters"],
              PollTable.empty.harris_result ++ [50],
              PollTable.empty.trump_result ++ [40]⟩) :=
  ⟨by decide, by decide, by decide, by decide, by decide,
    C6_header_and_valid_row "hdrA" "hdrB" "SEP,5,1000,Likely Voters,50,40" ["keep"]
      PollTable.empty "SEP" "5" "1000" "Likely Voters" "50" "40" 5 1000 50 40
      (by decide) (by decide) (by decide) (by decide) (by decide)⟩
